import Mathlib

/-!
Verification of the protocol core of a Kademlia-style DHT node
(`kademlia/protocol.py`).  The protocol module's collaborators
(`kademlia/node.py`, `kademlia/routing.py`, `kademlia/utils.py`, the
key/value storage backend and the blob file store) are not part of the
source tree under verification; where their behaviour matters they are
modelled from the specification, and each such definition says so in its
doc comment.  Everything in the `KademliaProtocol` namespace-free section
below is a direct translation of `protocol.py`.
-/

/-- Byte strings (keys, node identifiers on the wire, stored values) are
modelled as lists of naturals, one per byte. -/
abbrev Bytes := List Nat

/-- Modelled from the spec: `kademlia/node.py` is absent from src/.  A
contact is an identifier (a 160-bit value, modelled as a natural number,
the integer value of the id bytes) plus an optional network address;
`Node(digest(key))` in the source carries no address, hence the options. -/
structure Node where
  id : Nat
  ip : Option String
  port : Option Nat
deriving DecidableEq, Repr

/-- Modelled from the spec: XOR distance between two identifiers
(`node.py` is absent from src/). -/
def distance (a b : Nat) : Nat := Nat.xor a b

/-- Modelled from the spec: `Node.distance_to` compares long ids by XOR. -/
def Node.distance_to (a b : Node) : Nat := distance a.id b.id

/-- Placeholder contact used only as the (never-relevant) default of
`List.headD` / `List.getLastD` on lists known to be non-empty. -/
def dummyNode : Node := ⟨0, none, none⟩

/-- Modelled from the spec: a k-bucket covers the identifier range
`[low, high]`, holds contacts in recency order (most recently seen last)
and remembers when it was last touched. -/
structure KBucket where
  low : Nat
  high : Nat
  nodes : List Node
  last_updated : Nat
deriving DecidableEq, Repr

/-- Modelled from the spec: the routing table is an ordered collection of
buckets whose ranges partition identifier space, plus the replication
parameter `ksize` (`routing.py` is absent from src/).  Bucket splitting is
not modelled: no claim under verification depends on it, and a full bucket
simply rejects a genuinely new contact, which the spec allows. -/
structure RoutingTable where
  ksize : Nat
  buckets : List KBucket
deriving DecidableEq, Repr

/-- All contacts currently known to the table, bucket by bucket. -/
def tableNodes (r : RoutingTable) : List Node :=
  (r.buckets.map KBucket.nodes).flatten

/-- Modelled from the spec: true iff no contact with this id currently
exists in the table. -/
def is_new_node (r : RoutingTable) (n : Node) : Bool :=
  !((tableNodes r).any (fun m => m.id == n.id))

/-- Modelled from the spec: per-bucket effect of `add_contact` on the
bucket covering the contact's id — refresh (move to most-recently-seen
position) when the id is already present, append when there is room, and
silently drop the contact when the bucket is full. -/
def bucketAdd (k : Nat) (c : Node) (b : KBucket) : KBucket :=
  if b.low ≤ c.id ∧ c.id ≤ b.high then
    if b.nodes.any (fun m => m.id == c.id) then
      { b with nodes := b.nodes.filter (fun m => !(m.id == c.id)) ++ [c] }
    else if b.nodes.length < k then
      { b with nodes := b.nodes ++ [c] }
    else b
  else b

/-- Modelled from the spec: insert or refresh a contact in the bucket
whose range covers its id. -/
def add_contact (r : RoutingTable) (c : Node) : RoutingTable :=
  { r with buckets := r.buckets.map (bucketAdd r.ksize c) }

/-- Modelled from the spec: remove a contact by id from whichever bucket
holds it; idempotent when absent. -/
def remove_contact (r : RoutingTable) (c : Node) : RoutingTable :=
  { r with buckets :=
      r.buckets.map (fun b =>
        { b with nodes := b.nodes.filter (fun m => !(m.id == c.id)) }) }

/-- Ordering of contacts by distance to a target contact. -/
def distLE (t : Node) (a b : Node) : Prop :=
  a.distance_to t ≤ b.distance_to t

instance (t : Node) : DecidableRel (distLE t) :=
  fun _ _ => Nat.decLe _ _

instance (t : Node) : IsTotal Node (distLE t) :=
  ⟨fun a b => Nat.le_total (a.distance_to t) (b.distance_to t)⟩

instance (t : Node) : IsTrans Node (distLE t) :=
  ⟨fun _ _ _ hab hbc => Nat.le_trans hab hbc⟩

/-- Modelled from the spec: global k-nearest query — up to `count`
contacts across all buckets, sorted ascending by distance to the target,
excluding the given contact (by id) if present. -/
def find_neighbors (r : RoutingTable) (target : Node) (exclude : Option Node)
    (count : Nat) : List Node :=
  let cands := (tableNodes r).filter (fun c =>
    match exclude with
    | some e => !(c.id == e.id)
    | none => true)
  (List.insertionSort (distLE target) cands).take count

/-- Modelled from the spec: buckets whose `last_updated` exceeds the
staleness threshold relative to `now`. -/
def lonely_buckets (now threshold : Nat) (r : RoutingTable) : List KBucket :=
  r.buckets.filter (fun b => threshold < now - b.last_updated)

/-- Modelled from the spec: association-list view of a keyed collection
(the key/value storage collaborator and the blob file directories).
Lookup returns the value of the first entry whose key matches. -/
def kvGet {α : Type} (l : List (Bytes × α)) (k : Bytes) : Option α :=
  match l.find? (fun kv => kv.1 == k) with
  | some kv => some kv.2
  | none => none

/-- Modelled from the spec: write-through with silent overwrite, keeping
the original position of an overwritten key (dict/file semantics). -/
def kvSet {α : Type} (l : List (Bytes × α)) (k : Bytes) (v : α) :
    List (Bytes × α) :=
  match l with
  | [] => [(k, v)]
  | kv :: rest => if kv.1 == k then (k, v) :: rest else kv :: kvSet rest k v

/-- Modelled from the spec: deletion of every entry under a key. -/
def kvErase {α : Type} (l : List (Bytes × α)) (k : Bytes) :
    List (Bytes × α) :=
  l.filter (fun kv => !(kv.1 == k))

/-- Python `storage.get(key, None)`: the stored value (itself possibly
`None`, modelled as `Option Bytes`) or `None` when the key is absent —
the two collapse, exactly as in the source. -/
def storageGet (l : List (Bytes × Option Bytes)) (k : Bytes) : Option Bytes :=
  match l.find? (fun kv => kv.1 == k) with
  | some kv => kv.2
  | none => none

/-- Python exceptions that `protocol.py` raises or catches around file
input and output. -/
inductive PyError where
  | typeError
  | fileNotFound
deriving DecidableEq, Repr

/-- Modelled from the spec: `os.remove` deletes the file or raises
`FileNotFoundError` when it does not exist. -/
def osRemove {α : Type} (l : List (Bytes × α)) (k : Bytes) :
    Except PyError (List (Bytes × α)) :=
  if l.any (fun kv => kv.1 == k) then Except.ok (kvErase l k)
  else Except.error PyError.fileNotFound

/-- Python `int.to_bytes(len, byteorder='big')`: big-endian byte list of
fixed length. -/
def toBytesBE : Nat → Nat → List Nat
  | 0, _ => []
  | k + 1, n => toBytesBE k (n / 256) ++ [n % 256]

/-- Big-endian byte list decoded back to a natural number (Python
`int.from_bytes(..., 'big')`, also how a `Node` id's integer value arises
from its byte string). -/
def fromBytesBE (l : List Nat) : Nat :=
  l.foldl (fun acc b => acc * 256 + b) 0

/-- Value carried by the blob-store RPC: either a byte string (directly
writable in binary mode) or a text string, whose binary write raises
`TypeError` in the source. -/
inductive BlobValue where
  | bin : Bytes → BlobValue
  | txt : String → BlobValue
deriving DecidableEq, Repr

/-- Result shape of `rpc_find_value`: either the `{value: ...}` dict or
the neighbor list that `rpc_find_node` would produce. -/
inductive FindValueResult where
  | value : Option Bytes → FindValueResult
  | nodes : List (Nat × Option String × Option Nat) → FindValueResult
deriving DecidableEq, Repr

/-- Python `tuple(node)`: the `(id, ip, port)` triple sent on the wire by
`rpc_find_node`. -/
def nodeTuple (n : Node) : Nat × Option String × Option Nat :=
  (n.id, n.ip, n.port)

/-- A replication store call spawned by `asyncio.ensure_future(
self.call_store(node, key, value))`: target contact, key and value. -/
abbrev StoreCall := Node × Bytes × Option Bytes

/-- State of one `KademliaProtocol` instance: the routing table, the
key/value storage collaborator (iteration order preserved; a stored value
may itself be Python `None`), the binary blob directory
(`files_path/<hex>.kad`), the legacy text directory
(`data_path/<hex>.txt`) and the local node.  The `digest` hash of
`kademlia/utils.py` is not in src/ and is passed to each operation as an
abstract function from key bytes to identifier values. -/
structure PState where
  router : RoutingTable
  storage : List (Bytes × Option Bytes)
  binFiles : List (Bytes × Bytes)
  txtFiles : List (Bytes × String)
  source_node : Node
deriving DecidableEq, Repr

/-- Contact built by every handler from the sender address and the
caller's claimed id: `Node(nodeid, sender[0], sender[1])`. -/
def mkSource (sender : String × Nat) (nodeid : Nat) : Node :=
  ⟨nodeid, some sender.1, some sender.2⟩

/-- Translation of `KademliaProtocol.welcome_if_new`: when the contact is
already known return immediately; otherwise scan the storage iterator,
deciding for each key from the CURRENT table (`neighbors`,
`neighbors[-1]`, `neighbors[0]`) whether to spawn a replication store
call, and only then `add_contact`.  Result: the routing table after the
call and the list of spawned store calls. -/
def welcome_if_new (digest : Bytes → Nat) (source_node : Node)
    (router : RoutingTable) (storage : List (Bytes × Option Bytes))
    (node : Node) : RoutingTable × List StoreCall :=
  if is_new_node router node = false then
    (router, [])
  else
    let calls := storage.filterMap (fun kv =>
      let keynode : Node := ⟨digest kv.1, none, none⟩
      let neighbors := find_neighbors router keynode none router.ksize
      if neighbors.isEmpty then some (node, kv.1, kv.2)
      else if node.distance_to keynode <
                (neighbors.getLastD dummyNode).distance_to keynode ∧
              source_node.distance_to keynode <
                (neighbors.headD dummyNode).distance_to keynode then
        some (node, kv.1, kv.2)
      else none)
    (add_contact router node, calls)

/-- Translation of `KademliaProtocol.handle_call_response`: on a failed
result remove the contact, otherwise run the welcome path; either way
hand the result back unchanged.  Result: the propagated call result, the
routing table after the call and the spawned store calls. -/
def handle_call_response {α : Type} (digest : Bytes → Nat)
    (source_node : Node) (router : RoutingTable)
    (storage : List (Bytes × Option Bytes)) (result : Bool × α)
    (node : Node) : (Bool × α) × RoutingTable × List StoreCall :=
  if result.1 = false then
    (result, remove_contact router node, [])
  else
    let w := welcome_if_new digest source_node router storage node
    (result, w.1, w.2)

/-- Translation of `KademliaProtocol.get_refresh_ids`: one
`random.randint(*bucket.range)` per lonely bucket, encoded with
`.to_bytes(20, byteorder='big')`.  The random generator is passed in as a
function `rnd` from the inclusive bounds to a draw. -/
def get_refresh_ids (rnd : Nat → Nat → Nat) (now threshold : Nat)
    (r : RoutingTable) : List (List Nat) :=
  (lonely_buckets now threshold r).map
    (fun b => toBytesBE 20 (rnd b.low b.high))

/-- Translation of `KademliaProtocol.rpc_stun`: a static method that
echoes the sender address; it receives no claimed id and touches no
state. -/
def rpc_stun (st : PState) (sender : String × Nat) :
    PState × (String × Nat) :=
  (st, sender)

/-- Translation of `KademliaProtocol.rpc_ping`: welcome the caller, then
answer with the local node's id. -/
def rpc_ping (digest : Bytes → Nat) (st : PState) (sender : String × Nat)
    (nodeid : Nat) : PState × List StoreCall × Nat :=
  let source := mkSource sender nodeid
  let w := welcome_if_new digest st.source_node st.router st.storage source
  ({ st with router := w.1 }, w.2, st.source_node.id)

/-- Translation of `KademliaProtocol.rpc_store`: welcome the caller,
overwrite `storage[key]`, answer `True`. -/
def rpc_store (digest : Bytes → Nat) (st : PState) (sender : String × Nat)
    (nodeid : Nat) (key : Bytes) (value : Option Bytes) :
    PState × List StoreCall × Bool :=
  let source := mkSource sender nodeid
  let w := welcome_if_new digest st.source_node st.router st.storage source
  ({ st with router := w.1, storage := kvSet st.storage key value }, w.2, true)

/-- Translation of `KademliaProtocol.rpc_file_store`: welcome the caller,
then try the binary write `open(files_path/<hex>.kad, "wb").write(value)`.
Opening in mode `"wb"` truncates or creates the file before the write can
raise `TypeError` for a text value, so the except branch sees a partially
written (empty) artifact, removes it with `os.remove`, and rewrites the
value through the text path `open(data_path/<hex>.txt, "w")`.  An
exception escaping the handler (none can, as proved below) would surface
as `Except.error`. -/
def rpc_file_store (digest : Bytes → Nat) (st : PState)
    (sender : String × Nat) (node_id : Nat) (key : Bytes)
    (value : BlobValue) :
    Except PyError (PState × List StoreCall × Bool) :=
  let source := mkSource sender node_id
  let w := welcome_if_new digest st.source_node st.router st.storage source
  match value with
  | BlobValue.bin b =>
    Except.ok
      ({ st with router := w.1, binFiles := kvSet st.binFiles key b }, w.2,
        true)
  | BlobValue.txt s =>
    match osRemove (kvSet st.binFiles key []) key with
    | Except.error e => Except.error e
    | Except.ok bins =>
      let st1 := { st with router := w.1, binFiles := bins }
      Except.ok ({ st1 with txtFiles := kvSet st.txtFiles key s }, w.2, true)

/-- Translation of `KademliaProtocol.rpc_find_file`: welcome the caller,
then try the binary path, on `FileNotFoundError` the text path, and on a
second `FileNotFoundError` answer the `{value: None}` sentinel. -/
def rpc_find_file (digest : Bytes → Nat) (st : PState)
    (sender : String × Nat) (node_id : Nat) (key : Bytes) :
    Except PyError (PState × List StoreCall × Option BlobValue) :=
  let source := mkSource sender node_id
  let w := welcome_if_new digest st.source_node st.router st.storage source
  let st1 := { st with router := w.1 }
  match kvGet st.binFiles key with
  | some b => Except.ok (st1, w.2, some (BlobValue.bin b))
  | none =>
    match kvGet st.txtFiles key with
    | some s => Except.ok (st1, w.2, some (BlobValue.txt s))
    | none => Except.ok (st1, w.2, none)

/-- Translation of `KademliaProtocol.rpc_find_node`: welcome the caller,
then query `find_neighbors` on the post-welcome table for the target
`Node(key)`, excluding the caller, and answer the tuple list. -/
def rpc_find_node (digest : Bytes → Nat) (st : PState)
    (sender : String × Nat) (nodeid : Nat) (key : Bytes) :
    PState × List StoreCall × List (Nat × Option String × Option Nat) :=
  let source := mkSource sender nodeid
  let w := welcome_if_new digest st.source_node st.router st.storage source
  let node : Node := ⟨fromBytesBE key, none, none⟩
  let neighbors := find_neighbors w.1 node (some source) w.1.ksize
  ({ st with router := w.1 }, w.2, neighbors.map nodeTuple)

/-- Translation of `KademliaProtocol.rpc_find_value`: welcome the caller,
read `storage.get(key, None)`, and either answer `{value: ...}` or fall
through to `rpc_find_node` (which runs its own welcome on the updated
state, exactly as the nested call does in the source). -/
def rpc_find_value (digest : Bytes → Nat) (st : PState)
    (sender : String × Nat) (nodeid : Nat) (key : Bytes) :
    PState × List StoreCall × FindValueResult :=
  let source := mkSource sender nodeid
  let w := welcome_if_new digest st.source_node st.router st.storage source
  let st1 := { st with router := w.1 }
  match storageGet st.storage key with
  | none =>
    let inner := rpc_find_node digest st1 sender nodeid key
    (inner.1, w.2 ++ inner.2.1, FindValueResult.nodes inner.2.2)
  | some v => (st1, w.2, FindValueResult.value (some v))

/-! Association-list lemmas for the storage and file collaborators. -/

theorem kvGet_kvSet_self {α : Type} (l : List (Bytes × α)) (k : Bytes)
    (v : α) : kvGet (kvSet l k v) k = some v := by
  induction l with
  | nil => simp [kvSet, kvGet, List.find?]
  | cons kv rest ih =>
    by_cases h : kv.1 == k
    · simp [kvSet, h, kvGet, List.find?]
    · simp only [kvSet, h, if_neg, Bool.false_eq_true, if_false]
      simpa [kvGet, List.find?, h] using ih

theorem kvGet_kvErase_self {α : Type} (l : List (Bytes × α)) (k : Bytes) :
    kvGet (kvErase l k) k = none := by
  induction l with
  | nil => simp [kvErase, kvGet, List.find?]
  | cons kv rest ih =>
    by_cases h : kv.1 == k
    · simpa [kvErase, h] using ih
    · simp only [kvErase] at ih ⊢
      simp [List.filter, h, kvGet, List.find?] at ih ⊢
      exact ih

theorem kvErase_kvSet_self {α : Type} (l : List (Bytes × α)) (k : Bytes)
    (v : α) : kvErase (kvSet l k v) k = kvErase l k := by
  induction l with
  | nil => simp [kvSet, kvErase, List.filter]
  | cons kv rest ih =>
    by_cases h : kv.1 == k
    · simp [kvSet, h, kvErase, List.filter]
    · simp [kvSet, h, kvErase, List.filter] at ih ⊢
      exact ih

theorem kvSet_any_self {α : Type} (l : List (Bytes × α)) (k : Bytes)
    (v : α) : (kvSet l k v).any (fun kv => kv.1 == k) = true := by
  induction l with
  | nil => simp [kvSet]
  | cons kv rest ih =>
    by_cases h : kv.1 == k
    · simp [kvSet, h]
    · simp [kvSet, h, ih]

theorem osRemove_kvSet_self {α : Type} (l : List (Bytes × α)) (k : Bytes)
    (v : α) : osRemove (kvSet l k v) k = Except.ok (kvErase l k) := by
  simp [osRemove, kvSet_any_self, kvErase_kvSet_self]

/-! Big-endian encoding lemmas used by the refresh-id claim. -/

theorem toBytesBE_length (k n : Nat) : (toBytesBE k n).length = k := by
  induction k generalizing n with
  | zero => simp [toBytesBE]
  | succ k ih => simp [toBytesBE, ih]

theorem fromBytesBE_append_one (l : List Nat) (b : Nat) :
    fromBytesBE (l ++ [b]) = fromBytesBE l * 256 + b := by
  simp [fromBytesBE, List.foldl_append]

theorem fromBytesBE_toBytesBE (k n : Nat) (h : n < 256 ^ k) :
    fromBytesBE (toBytesBE k n) = n := by
  induction k generalizing n with
  | zero =>
    simp only [pow_zero, Nat.lt_one_iff] at h
    simp [toBytesBE, fromBytesBE, h]
  | succ k ih =>
    have hdiv : n / 256 < 256 ^ k := by
      have : n < 256 ^ k * 256 := by
        simpa [pow_succ] using h
      exact Nat.div_lt_of_lt_mul (by simpa [Nat.mul_comm] using this)
    rw [toBytesBE, fromBytesBE_append_one, ih _ hdiv]
    omega

/-! Routing-table lemmas. -/

theorem bucketAdd_idem (k : Nat) (c : Node) (b : KBucket) :
    bucketAdd k c (bucketAdd k c b) = bucketAdd k c b := by
  by_cases hr : b.low ≤ c.id ∧ c.id ≤ b.high
  · by_cases hhas : b.nodes.any (fun m => m.id == c.id)
    · simp only [bucketAdd, hr, if_true, hhas, if_pos]
      simp [hr, List.any_append, List.filter_append,
        List.filter_filter, Bool.and_self]
    · by_cases hlen : b.nodes.length < k
      · simp only [bucketAdd, hr, if_true, hhas, Bool.false_eq_true,
          if_false, hlen, if_pos]
        have hall : ∀ m ∈ b.nodes, (m.id == c.id) = false := by
          simpa [List.any_eq_true] using hhas
        simp [hr, List.any_append, List.filter_append]
        intro m hm
        simpa using hall m hm
      · simp [bucketAdd, hr, hhas, hlen]
  · simp [bucketAdd, hr]

theorem add_contact_ksize (r : RoutingTable) (c : Node) :
    (add_contact r c).ksize = r.ksize := rfl

theorem add_contact_idem (r : RoutingTable) (c : Node) :
    add_contact (add_contact r c) c = add_contact r c := by
  simp only [add_contact, List.map_map]
  refine congrArg _ (List.map_congr_left (fun b _ => ?_))
  exact bucketAdd_idem r.ksize c b

/-! Rewrites for the two branches of `welcome_if_new` and stability of
the routing table under a repeated welcome for the same contact. -/

theorem welcome_if_new_not_new (digest : Bytes → Nat) (sn : Node)
    (r : RoutingTable) (st : List (Bytes × Option Bytes)) (c : Node)
    (h : is_new_node r c = false) :
    welcome_if_new digest sn r st c = (r, []) := by
  simp [welcome_if_new, h]

theorem welcome_if_new_fst (digest : Bytes → Nat) (sn : Node)
    (r : RoutingTable) (st : List (Bytes × Option Bytes)) (c : Node)
    (h : is_new_node r c = true) :
    (welcome_if_new digest sn r st c).1 = add_contact r c := by
  simp [welcome_if_new, h]

theorem welcome_if_new_fst_stable (digest : Bytes → Nat) (sn : Node)
    (r : RoutingTable) (st : List (Bytes × Option Bytes)) (c : Node) :
    (welcome_if_new digest sn
        (welcome_if_new digest sn r st c).1 st c).1 =
      (welcome_if_new digest sn r st c).1 := by
  cases h : is_new_node r c with
  | false =>
    rw [welcome_if_new_not_new digest sn r st c h]
    rw [welcome_if_new_not_new digest sn r st c h]
  | true =>
    rw [welcome_if_new_fst digest sn r st c h]
    cases h2 : is_new_node (add_contact r c) c with
    | false => rw [welcome_if_new_not_new digest sn _ st c h2]
    | true => rw [welcome_if_new_fst digest sn _ st c h2, add_contact_idem]

theorem welcome_if_new_fst_ksize (digest : Bytes → Nat) (sn : Node)
    (r : RoutingTable) (st : List (Bytes × Option Bytes)) (c : Node) :
    (welcome_if_new digest sn r st c).1.ksize = r.ksize := by
  cases h : is_new_node r c with
  | false => rw [welcome_if_new_not_new digest sn r st c h]
  | true => rw [welcome_if_new_fst digest sn r st c h, add_contact_ksize]

/-! Order lemmas about sorted neighbor lists: the head realizes the
minimum and the last element realizes the maximum distance. -/

theorem getLastD_mem {α : Type} (l : List α) (d : α) (h : l ≠ []) :
    l.getLastD d ∈ l := by
  induction l generalizing d with
  | nil => exact absurd rfl h
  | cons a rest ih =>
    rw [List.getLastD_cons]
    cases rest with
    | nil => simp [List.getLastD]
    | cons b t => exact List.mem_cons_of_mem a (ih a (by simp))

theorem pairwise_headD_min (t : Node) (l : List Node) (d : Node)
    (hp : List.Pairwise (distLE t) l) :
    ∀ x ∈ l, (l.headD d).distance_to t ≤ x.distance_to t := by
  cases l with
  | nil => intro x hx; exact absurd hx (List.not_mem_nil x)
  | cons a rest =>
    intro x hx
    rcases List.mem_cons.mp hx with hax | hxr
    · subst hax; exact Nat.le_refl _
    · exact (List.pairwise_cons.mp hp).1 x hxr

theorem pairwise_getLastD_max (t : Node) :
    ∀ (l : List Node) (d : Node), List.Pairwise (distLE t) l →
      ∀ x ∈ l, x.distance_to t ≤ (l.getLastD d).distance_to t := by
  intro l
  induction l with
  | nil => intro d hp x hx; exact absurd hx (List.not_mem_nil x)
  | cons a rest ih =>
    intro d hp x hx
    rw [List.getLastD_cons]
    rcases List.pairwise_cons.mp hp with ⟨ha, hrest⟩
    rcases List.mem_cons.mp hx with hax | hxr
    · subst hax
      cases rest with
      | nil => simp [List.getLastD]
      | cons b tl =>
        have hm := ha _ (getLastD_mem (b :: tl) x (by simp))
        simpa [distLE] using hm
    · exact ih a hrest x hxr

theorem find_neighbors_pairwise (r : RoutingTable) (t : Node)
    (ex : Option Node) (cnt : Nat) :
    List.Pairwise (distLE t) (find_neighbors r t ex cnt) :=
  List.Pairwise.sublist (List.take_sublist _ _)
    (List.sorted_insertionSort (distLE t) _)

theorem headD_mem {α : Type} (l : List α) (d : α) (h : l ≠ []) :
    l.headD d ∈ l := by
  cases l with
  | nil => exact absurd rfl h
  | cons a rest => simp [List.headD]

/-- Per-key decision of the replication loop in `welcome_if_new`,
factored out of the storage scan: the Python
`if not neighbors or (new_node_close and this_closest)` guard around
`asyncio.ensure_future(self.call_store(node, key, value))`. -/
def welcomeDecision (digest : Bytes → Nat) (source_node : Node)
    (router : RoutingTable) (node : Node) (kv : Bytes × Option Bytes) :
    Option StoreCall :=
  let keynode : Node := ⟨digest kv.1, none, none⟩
  let neighbors := find_neighbors router keynode none router.ksize
  if neighbors.isEmpty then some (node, kv.1, kv.2)
  else if node.distance_to keynode <
            (neighbors.getLastD dummyNode).distance_to keynode ∧
          source_node.distance_to keynode <
            (neighbors.headD dummyNode).distance_to keynode then
    some (node, kv.1, kv.2)
  else none

theorem welcome_if_new_snd (digest : Bytes → Nat) (sn : Node)
    (r : RoutingTable) (st : List (Bytes × Option Bytes)) (c : Node)
    (h : is_new_node r c = true) :
    (welcome_if_new digest sn r st c).2 =
      st.filterMap (welcomeDecision digest sn r c) := by
  unfold welcome_if_new
  rw [if_neg (by simp [h])]
  rfl

/-- Spec-side statement of the replication rule of claim C1, phrased as
the claim words it: replicate the key to the new contact iff (a) the
table tracks no neighbors for the key, or (b) the new contact is
strictly closer to the key than the farthest of the returned k nearest
and the local node is strictly closer than the nearest of them — all on
the routing table as given, i.e. before the new contact is inserted. -/
def replicationRule (digest : Bytes → Nat) (source_node : Node)
    (router : RoutingTable) (node : Node) (key : Bytes) : Prop :=
  let keynode : Node := ⟨digest key, none, none⟩
  let nbrs := find_neighbors router keynode none router.ksize
  nbrs = [] ∨
    ((∃ f ∈ nbrs,
        (∀ m ∈ nbrs, m.distance_to keynode ≤ f.distance_to keynode) ∧
        node.distance_to keynode < f.distance_to keynode) ∧
     (∃ c ∈ nbrs,
        (∀ m ∈ nbrs, c.distance_to keynode ≤ m.distance_to keynode) ∧
        source_node.distance_to keynode < c.distance_to keynode))

theorem cond_iff_aux (t sn node : Node) (nbrs : List Node)
    (hp : List.Pairwise (distLE t) nbrs) :
    (nbrs.isEmpty = true ∨
      (node.distance_to t < (nbrs.getLastD dummyNode).distance_to t ∧
       sn.distance_to t < (nbrs.headD dummyNode).distance_to t)) ↔
    (nbrs = [] ∨
      ((∃ f ∈ nbrs,
          (∀ m ∈ nbrs, m.distance_to t ≤ f.distance_to t) ∧
          node.distance_to t < f.distance_to t) ∧
       (∃ c ∈ nbrs,
          (∀ m ∈ nbrs, c.distance_to t ≤ m.distance_to t) ∧
          sn.distance_to t < c.distance_to t))) := by
  by_cases hnil : nbrs = []
  · simp [hnil]
  · have hne : nbrs.isEmpty = false := by
      simpa [List.isEmpty_iff] using hnil
    simp only [hne, Bool.false_eq_true, false_or, hnil]
    constructor
    · rintro ⟨hlast, hhead⟩
      refine ⟨⟨nbrs.getLastD dummyNode, getLastD_mem nbrs dummyNode hnil,
          pairwise_getLastD_max t nbrs dummyNode hp, hlast⟩,
        ⟨nbrs.headD dummyNode, headD_mem nbrs dummyNode hnil,
          pairwise_headD_min t nbrs dummyNode hp, hhead⟩⟩
    · rintro ⟨⟨f, hfmem, hfmax, hflt⟩, ⟨c, hcmem, hcmin, hclt⟩⟩
      constructor
      · exact Nat.lt_of_lt_of_le hflt
          (pairwise_getLastD_max t nbrs dummyNode hp f hfmem)
      · exact Nat.lt_of_lt_of_le hclt
          (hcmin _ (headD_mem nbrs dummyNode hnil))

theorem ifchain_some_iff {p q : Prop} [Decidable p] [Decidable q]
    (x out : StoreCall) :
    (if p then some x else if q then some x else none) = some out ↔
      (out = x ∧ (p ∨ q)) := by
  by_cases hp : p <;> by_cases hq : q <;> simp [hp, hq, eq_comm]

theorem welcomeDecision_some_iff (digest : Bytes → Nat) (sn : Node)
    (r : RoutingTable) (c : Node) (kv : Bytes × Option Bytes)
    (out : StoreCall) :
    welcomeDecision digest sn r c kv = some out ↔
      (out = (c, kv.1, kv.2) ∧ replicationRule digest sn r c kv.1) := by
  simp only [welcomeDecision, replicationRule]
  rw [ifchain_some_iff]
  exact and_congr_right (fun _ =>
    cond_iff_aux ⟨digest kv.1, none, none⟩ sn c _
      (find_neighbors_pairwise r ⟨digest kv.1, none, none⟩ none r.ksize))

/-- Shared helper: when the key is absent (or stored as Python `None`),
`rpc_find_value` answers exactly the neighbor list that `rpc_find_node`
answers for the same sender, claimed id and key.  The nested
`rpc_find_node` call runs its own welcome on the already-updated table,
which by `welcome_if_new_fst_stable` leaves the table where the outer
welcome put it. -/
theorem rpc_find_value_fallthrough (digest : Bytes → Nat) (st : PState)
    (sender : String × Nat) (nodeid : Nat) (key : Bytes)
    (h : storageGet st.storage key = none) :
    (rpc_find_value digest st sender nodeid key).2.2 =
      FindValueResult.nodes
        ((rpc_find_node digest st sender nodeid key).2.2) := by
  simp [rpc_find_value, rpc_find_node, h, welcome_if_new_fst_stable]

/-- C1: for a contact that is new to the routing table, `welcome_if_new`
spawns a replication store call for a stored key if and only if the
replication rule holds for that key — the table tracks no neighbors for
the key, or the new contact is strictly closer to the key than the
farthest of the returned k nearest while the local node is strictly
closer than the nearest of them — and the rule is evaluated on the
routing table as it was before the contact is added: `add_contact` runs
only after all decisions, producing the returned table. -/
theorem c1_replication_iff (digest : Bytes → Nat) (sn : Node)
    (r : RoutingTable) (storage : List (Bytes × Option Bytes))
    (node : Node) (key : Bytes) (value : Option Bytes)
    (hnew : is_new_node r node = true)
    (hmem : (key, value) ∈ storage) :
    (welcome_if_new digest sn r storage node).1 = add_contact r node ∧
      ((node, key, value) ∈ (welcome_if_new digest sn r storage node).2 ↔
        replicationRule digest sn r node key) := by
  refine ⟨welcome_if_new_fst digest sn r storage node hnew, ?_⟩
  rw [welcome_if_new_snd digest sn r storage node hnew, List.mem_filterMap]
  constructor
  · rintro ⟨kv, hkv, hf⟩
    rcases (welcomeDecision_some_iff digest sn r node kv _).mp hf with
      ⟨hout, hrule⟩
    have hk : key = kv.1 := congrArg (fun p => p.2.1) hout
    rw [hk]
    exact hrule
  · intro hrule
    exact ⟨(key, value), hmem,
      (welcomeDecision_some_iff digest sn r node (key, value) _).mpr
        ⟨rfl, hrule⟩⟩

/-- Witness for C1 at a concrete input: an empty table (no neighbors for
the key at all), one stored key, one genuinely new contact. -/
theorem c1_replication_iff_witness :
    is_new_node ⟨2, [⟨0, 1000, [], 0⟩]⟩ ⟨5, none, none⟩ = true ∧
    ([1], (some [9] : Option Bytes)) ∈ [([1], (some [9] : Option Bytes))] ∧
    ((welcome_if_new (fun _ => 0) ⟨7, none, none⟩ ⟨2, [⟨0, 1000, [], 0⟩]⟩
        [([1], some [9])] ⟨5, none, none⟩).1 =
      add_contact ⟨2, [⟨0, 1000, [], 0⟩]⟩ ⟨5, none, none⟩ ∧
      ((⟨5, none, none⟩, [1], some [9]) ∈
          (welcome_if_new (fun _ => 0) ⟨7, none, none⟩
            ⟨2, [⟨0, 1000, [], 0⟩]⟩ [([1], some [9])] ⟨5, none, none⟩).2 ↔
        replicationRule (fun _ => 0) ⟨7, none, none⟩
          ⟨2, [⟨0, 1000, [], 0⟩]⟩ ⟨5, none, none⟩ [1])) :=
  ⟨by decide, by decide,
    c1_replication_iff (fun _ => 0) ⟨7, none, none⟩ ⟨2, [⟨0, 1000, [], 0⟩]⟩
      [([1], some [9])] ⟨5, none, none⟩ [1] (some [9])
      (by decide) (by decide)⟩

/-- C2: `handle_call_response` hands the call result back unchanged in
both branches; a failed result removes the contact and runs no
admission, a successful result runs the welcome admission path and
removes nothing. -/
theorem c2_handle_call_response {α : Type} (digest : Bytes → Nat)
    (sn : Node) (r : RoutingTable) (st : List (Bytes × Option Bytes))
    (result : Bool × α) (node : Node) :
    handle_call_response digest sn r st result node =
      (result,
        if result.1 then welcome_if_new digest sn r st node
        else (remove_contact r node, [])) := by
  by_cases h : result.1 <;> simp [handle_call_response, h]

/-- C4 counterexample: a contact already present in the table.  The
source returns from `welcome_if_new` before reaching `add_contact`, so
the table keeps its old recency order even though `add_contact` would
have moved the contact to the most-recently-seen position — refuting
"still calls add_contact so that the recency position is refreshed". -/
theorem c4_counterexample :
    is_new_node ⟨2, [⟨0, 1000, [⟨1, none, none⟩, ⟨2, none, none⟩], 0⟩]⟩
        ⟨1, none, none⟩ = false ∧
    welcome_if_new (fun _ => 0) ⟨7, none, none⟩
        ⟨2, [⟨0, 1000, [⟨1, none, none⟩, ⟨2, none, none⟩], 0⟩]⟩ []
        ⟨1, none, none⟩ =
      (⟨2, [⟨0, 1000, [⟨1, none, none⟩, ⟨2, none, none⟩], 0⟩]⟩, []) ∧
    (welcome_if_new (fun _ => 0) ⟨7, none, none⟩
        ⟨2, [⟨0, 1000, [⟨1, none, none⟩, ⟨2, none, none⟩], 0⟩]⟩ []
        ⟨1, none, none⟩).1 ≠
      add_contact ⟨2, [⟨0, 1000, [⟨1, none, none⟩, ⟨2, none, none⟩], 0⟩]⟩
        ⟨1, none, none⟩ := by
  decide

/-- C4 (amended): for a contact already present in the routing table,
`welcome_if_new` issues no replication store calls and leaves the
routing table unchanged — it returns before `add_contact`, so no
recency refresh happens. -/
theorem c4_known_contact_noop (digest : Bytes → Nat) (sn : Node)
    (r : RoutingTable) (st : List (Bytes × Option Bytes)) (c : Node)
    (h : is_new_node r c = false) :
    welcome_if_new digest sn r st c = (r, []) :=
  welcome_if_new_not_new digest sn r st c h

/-- Witness for the amended C4 at a concrete known contact. -/
theorem c4_known_contact_noop_witness :
    is_new_node ⟨2, [⟨0, 1000, [⟨3, none, none⟩], 0⟩]⟩ ⟨3, some "h", some 1⟩
        = false ∧
    welcome_if_new (fun _ => 0) ⟨7, none, none⟩
        ⟨2, [⟨0, 1000, [⟨3, none, none⟩], 0⟩]⟩ [([2], some [4])]
        ⟨3, some "h", some 1⟩ =
      (⟨2, [⟨0, 1000, [⟨3, none, none⟩], 0⟩]⟩, []) :=
  ⟨by decide,
    c4_known_contact_noop (fun _ => 0) ⟨7, none, none⟩
      ⟨2, [⟨0, 1000, [⟨3, none, none⟩], 0⟩]⟩ [([2], some [4])]
      ⟨3, some "h", some 1⟩ (by decide)⟩

/-- C5: when the key is present in the local key/value store,
`rpc_find_value` answers the `{value: ...}` dict with the stored value
and does not fall through; when it is absent, it answers exactly what
`rpc_find_node` answers for the same sender, claimed id and key. -/
theorem c5_find_value_precedence (digest : Bytes → Nat) (st : PState)
    (sender : String × Nat) (nodeid : Nat) (key : Bytes) :
    (match storageGet st.storage key with
      | some v =>
        (rpc_find_value digest st sender nodeid key).2.2 =
          FindValueResult.value (some v)
      | none =>
        (rpc_find_value digest st sender nodeid key).2.2 =
          FindValueResult.nodes
            ((rpc_find_node digest st sender nodeid key).2.2)) := by
  cases h : storageGet st.storage key with
  | none => exact rpc_find_value_fallthrough digest st sender nodeid key h
  | some v => simp [rpc_find_value, h]

/-- C10: a key that the store maps to the Python value `None` is
indistinguishable from an absent key at the `find_value` interface: the
handler behaves exactly as `rpc_find_node` and answers a neighbor list,
never `{value: None}`. -/
theorem c10_stored_none_is_absent (digest : Bytes → Nat) (st : PState)
    (sender : String × Nat) (nodeid : Nat) (key : Bytes)
    (p : Bytes × Option Bytes)
    (hfind : st.storage.find? (fun kv => kv.1 == key) = some p)
    (hnone : p.2 = none) :
    (rpc_find_value digest st sender nodeid key).2.2 =
      FindValueResult.nodes
        ((rpc_find_node digest st sender nodeid key).2.2) := by
  have h : storageGet st.storage key = none := by
    simp [storageGet, hfind, hnone]
  exact rpc_find_value_fallthrough digest st sender nodeid key h

/-- Witness for C10: one key stored with value `None`. -/
theorem c10_stored_none_is_absent_witness :
    ([([1], (none : Option Bytes))].find? (fun kv => kv.1 == [1]) =
      some ([1], none)) ∧
    (([1], (none : Option Bytes)).2 = none) ∧
    (rpc_find_value (fun _ => 0)
        ⟨⟨2, [⟨0, 1000, [], 0⟩]⟩, [([1], none)], [], [], ⟨7, none, none⟩⟩
        ("h", 1) 5 [1]).2.2 =
      FindValueResult.nodes
        ((rpc_find_node (fun _ => 0)
            ⟨⟨2, [⟨0, 1000, [], 0⟩]⟩, [([1], none)], [], [],
              ⟨7, none, none⟩⟩ ("h", 1) 5 [1]).2.2) :=
  ⟨by decide, rfl,
    c10_stored_none_is_absent (fun _ => 0)
      ⟨⟨2, [⟨0, 1000, [], 0⟩]⟩, [([1], none)], [], [], ⟨7, none, none⟩⟩
      ("h", 1) 5 [1] ([1], none) (by decide) rfl⟩

/-! Blob-store helpers shared by the round-trip and fallback claims. -/

theorem rpc_file_store_bin_eq (digest : Bytes → Nat) (st : PState)
    (sender : String × Nat) (nid : Nat) (key : Bytes) (b : Bytes) :
    rpc_file_store digest st sender nid key (BlobValue.bin b) =
      Except.ok
        (PState.mk
          (welcome_if_new digest st.source_node st.router st.storage
            (mkSource sender nid)).1
          st.storage (kvSet st.binFiles key b) st.txtFiles st.source_node,
         (welcome_if_new digest st.source_node st.router st.storage
            (mkSource sender nid)).2,
         true) := rfl

theorem rpc_file_store_txt_eq (digest : Bytes → Nat) (st : PState)
    (sender : String × Nat) (nid : Nat) (key : Bytes) (s : String) :
    rpc_file_store digest st sender nid key (BlobValue.txt s) =
      Except.ok
        (PState.mk
          (welcome_if_new digest st.source_node st.router st.storage
            (mkSource sender nid)).1
          st.storage (kvErase st.binFiles key)
          (kvSet st.txtFiles key s) st.source_node,
         (welcome_if_new digest st.source_node st.router st.storage
            (mkSource sender nid)).2,
         true) := by
  simp [rpc_file_store, osRemove_kvSet_self]

theorem rpc_find_file_eq (digest : Bytes → Nat) (st : PState)
    (sender : String × Nat) (nid : Nat) (key : Bytes) :
    rpc_find_file digest st sender nid key =
      Except.ok
        ({ st with
            router := (welcome_if_new digest st.source_node st.router
              st.storage (mkSource sender nid)).1 },
         (welcome_if_new digest st.source_node st.router st.storage
            (mkSource sender nid)).2,
         match kvGet st.binFiles key with
         | some b => some (BlobValue.bin b)
         | none =>
           match kvGet st.txtFiles key with
           | some s => some (BlobValue.txt s)
           | none => none) := by
  cases hb : kvGet st.binFiles key with
  | some b => simp [rpc_find_file, hb]
  | none =>
    cases ht : kvGet st.txtFiles key with
    | some s => simp [rpc_find_file, hb, ht]
    | none => simp [rpc_find_file, hb, ht]

/-- C6: blob round-trip — storing a value under a key via the blob-store
handler and then asking the blob-find handler for the same key answers
`{value: V}` with the stored value unchanged, for both the binary and the
legacy text representation. -/
theorem c6_blob_roundtrip (digest : Bytes → Nat) (st : PState)
    (sender : String × Nat) (nid : Nat) (key : Bytes) (v : BlobValue) :
    ∃ st1 calls1 st2 calls2,
      rpc_file_store digest st sender nid key v =
        Except.ok (st1, calls1, true) ∧
      rpc_find_file digest st1 sender nid key =
        Except.ok (st2, calls2, some v) := by
  cases v with
  | bin b =>
    have h2 := rpc_find_file_eq digest
      (PState.mk
        (welcome_if_new digest st.source_node st.router st.storage
          (mkSource sender nid)).1
        st.storage (kvSet st.binFiles key b) st.txtFiles st.source_node)
      sender nid key
    simp only [kvGet_kvSet_self] at h2
    exact ⟨_, _, _, _, rpc_file_store_bin_eq digest st sender nid key b, h2⟩
  | txt s =>
    have h2 := rpc_find_file_eq digest
      (PState.mk
        (welcome_if_new digest st.source_node st.router st.storage
          (mkSource sender nid)).1
        st.storage (kvErase st.binFiles key)
        (kvSet st.txtFiles key s) st.source_node)
      sender nid key
    simp only [kvGet_kvSet_self, kvGet_kvErase_self] at h2
    exact ⟨_, _, _, _, rpc_file_store_txt_eq digest st sender nid key s, h2⟩

/-- C7: the blob-find handler is total — it tries the binary path first,
then the legacy text path, and answers the `{value: None}` sentinel when
neither holds a blob; it never propagates an error for an absent blob. -/
theorem c7_find_file_sentinel (digest : Bytes → Nat) (st : PState)
    (sender : String × Nat) (nid : Nat) (key : Bytes) :
    rpc_find_file digest st sender nid key =
      Except.ok
        ({ st with
            router := (welcome_if_new digest st.source_node st.router
              st.storage (mkSource sender nid)).1 },
         (welcome_if_new digest st.source_node st.router st.storage
            (mkSource sender nid)).2,
         match kvGet st.binFiles key with
         | some b => some (BlobValue.bin b)
         | none =>
           match kvGet st.txtFiles key with
           | some s => some (BlobValue.txt s)
           | none => none) :=
  rpc_find_file_eq digest st sender nid key

/-- C8: for a value that cannot be written in binary form, the blob-store
handler removes the partially written binary artifact (the file that
`open(..., "wb")` created before `write` raised `TypeError`), writes the
value through the text fallback, and still answers `Except.ok` with
`True`: the binary failure is not surfaced to the caller. -/
theorem c8_file_store_text_fallback (digest : Bytes → Nat) (st : PState)
    (sender : String × Nat) (nid : Nat) (key : Bytes) (s : String) :
    rpc_file_store digest st sender nid key (BlobValue.txt s) =
      Except.ok
        (PState.mk
          (welcome_if_new digest st.source_node st.router st.storage
            (mkSource sender nid)).1
          st.storage (kvErase st.binFiles key)
          (kvSet st.txtFiles key s) st.source_node,
         (welcome_if_new digest st.source_node st.router st.storage
            (mkSource sender nid)).2,
         true) :=
  rpc_file_store_txt_eq digest st sender nid key s

theorem forall2_map_self {α β : Type} (f : α → β) (P : β → α → Prop)
    (l : List α) (h : ∀ a ∈ l, P (f a) a) :
    List.Forall₂ P (l.map f) l := by
  induction l with
  | nil => exact List.Forall₂.nil
  | cons a t ih =>
    exact List.Forall₂.cons (h a (List.mem_cons_self a t))
      (ih (fun x hx => h x (List.mem_cons_of_mem a hx)))

/-- C9: `get_refresh_ids` produces exactly one identifier per lonely
bucket, each a 20-byte big-endian encoding of a draw that lies inside the
distance range of the bucket it was drawn from.  The random generator is
abstracted as any function honoring the `random.randint` contract
(inclusive bounds); bucket ranges are assumed well formed and inside the
160-bit identifier space, as the table construction guarantees. -/
theorem c9_refresh_ids_in_range (rnd : Nat → Nat → Nat)
    (now threshold : Nat) (r : RoutingTable)
    (hrnd : ∀ a b : Nat, a ≤ b → a ≤ rnd a b ∧ rnd a b ≤ b)
    (hr : ∀ b ∈ r.buckets, b.low ≤ b.high ∧ b.high < 2 ^ 160) :
    (get_refresh_ids rnd now threshold r).length =
      (lonely_buckets now threshold r).length ∧
    List.Forall₂ (fun (rid : List Nat) (bk : KBucket) =>
        rid.length = 20 ∧ bk.low ≤ fromBytesBE rid ∧
          fromBytesBE rid ≤ bk.high)
      (get_refresh_ids rnd now threshold r)
      (lonely_buckets now threshold r) := by
  have h256 : (256 : ℕ) ^ 20 = 2 ^ 160 := by norm_num
  have key : ∀ bk ∈ lonely_buckets now threshold r,
      (toBytesBE 20 (rnd bk.low bk.high)).length = 20 ∧
      bk.low ≤ fromBytesBE (toBytesBE 20 (rnd bk.low bk.high)) ∧
      fromBytesBE (toBytesBE 20 (rnd bk.low bk.high)) ≤ bk.high := by
    intro bk hbk
    have hmem : bk ∈ r.buckets := List.mem_of_mem_filter hbk
    obtain ⟨hlh, hhi⟩ := hr bk hmem
    obtain ⟨h1, h2⟩ := hrnd bk.low bk.high hlh
    have hlt : rnd bk.low bk.high < 256 ^ 20 := by
      rw [h256]
      exact Nat.lt_of_le_of_lt h2 hhi
    rw [fromBytesBE_toBytesBE 20 _ hlt]
    exact ⟨toBytesBE_length 20 _, h1, h2⟩
  constructor
  · simp [get_refresh_ids]
  · exact forall2_map_self _ _ _ key

/-- Witness for C9: a single lonely bucket with range `[3, 10]` and the
left-endpoint generator. -/
theorem c9_refresh_ids_in_range_witness :
    (∀ a b : Nat, a ≤ b →
      a ≤ (fun (x : Nat) (_ : Nat) => x) a b ∧
        (fun (x : Nat) (_ : Nat) => x) a b ≤ b) ∧
    (∀ b ∈ (⟨2, [⟨3, 10, [], 0⟩]⟩ : RoutingTable).buckets,
      b.low ≤ b.high ∧ b.high < 2 ^ 160) ∧
    ((get_refresh_ids (fun x _ => x) 100 5 ⟨2, [⟨3, 10, [], 0⟩]⟩).length =
        (lonely_buckets 100 5 ⟨2, [⟨3, 10, [], 0⟩]⟩).length ∧
      List.Forall₂ (fun (rid : List Nat) (bk : KBucket) =>
          rid.length = 20 ∧ bk.low ≤ fromBytesBE rid ∧
            fromBytesBE rid ≤ bk.high)
        (get_refresh_ids (fun x _ => x) 100 5 ⟨2, [⟨3, 10, [], 0⟩]⟩)
        (lonely_buckets 100 5 ⟨2, [⟨3, 10, [], 0⟩]⟩)) :=
  ⟨fun a _ h => ⟨Nat.le_refl a, h⟩, by decide,
    c9_refresh_ids_in_range (fun x _ => x) 100 5 ⟨2, [⟨3, 10, [], 0⟩]⟩
      (fun a _ h => ⟨Nat.le_refl a, h⟩) (by decide)⟩

/-- Routing table and spawned store calls produced by the welcome
admission path for the contact `(sender address, claimed id)` on a given
protocol state — the common first step of the inbound handlers. -/
def welcomed (digest : Bytes → Nat) (st : PState) (sender : String × Nat)
    (nodeid : Nat) : RoutingTable × List StoreCall :=
  welcome_if_new digest st.source_node st.router st.storage
    (mkSource sender nodeid)

/-- C3 counterexample: `rpc_stun` is a static method that echoes the
sender without receiving a claimed id and without touching any state.
At a concrete state whose table does not know the sender, the state
after `rpc_stun` is unchanged, although running the welcome admission
path for a contact at the sender's address would have changed the
routing table — so stun does not invoke the admission path claimed for
every handler. -/
theorem c3_counterexample :
    (rpc_stun ⟨⟨2, [⟨0, 1000, [], 0⟩]⟩, [], [], [], ⟨7, none, none⟩⟩
        ("a", 9)).1 =
      ⟨⟨2, [⟨0, 1000, [], 0⟩]⟩, [], [], [], ⟨7, none, none⟩⟩ ∧
    is_new_node ⟨2, [⟨0, 1000, [], 0⟩]⟩ ⟨5, some "a", some 9⟩ = true ∧
    (welcome_if_new (fun _ => 0) ⟨7, none, none⟩ ⟨2, [⟨0, 1000, [], 0⟩]⟩
        [] ⟨5, some "a", some 9⟩).1 ≠ ⟨2, [⟨0, 1000, [], 0⟩]⟩ := by
  refine ⟨rfl, by decide, ?_⟩
  decide

/-- C3 (amended): every inbound RPC handler except `stun` — ping, store,
find_node, find_value, blob-store and blob-find — first constructs a
contact from the sender address and the caller's claimed id and runs the
welcome admission path for it before producing its result: the state it
returns carries the admission's routing table and its spawned store
calls (find_value may append the calls of its nested find_node).  `stun`
takes no claimed id and returns the state untouched. -/
theorem c3_admission_first (digest : Bytes → Nat) (st : PState)
    (sender : String × Nat) (nodeid : Nat) (key : Bytes)
    (value : Option Bytes) (bv : BlobValue) :
    rpc_stun st sender = (st, sender) ∧
    ((rpc_ping digest st sender nodeid).1.router =
        (welcomed digest st sender nodeid).1 ∧
      (rpc_ping digest st sender nodeid).2.1 =
        (welcomed digest st sender nodeid).2) ∧
    ((rpc_store digest st sender nodeid key value).1.router =
        (welcomed digest st sender nodeid).1 ∧
      (rpc_store digest st sender nodeid key value).2.1 =
        (welcomed digest st sender nodeid).2) ∧
    ((rpc_find_node digest st sender nodeid key).1.router =
        (welcomed digest st sender nodeid).1 ∧
      (rpc_find_node digest st sender nodeid key).2.1 =
        (welcomed digest st sender nodeid).2) ∧
    ((rpc_find_value digest st sender nodeid key).1.router =
        (welcomed digest st sender nodeid).1 ∧
      ∃ t, (rpc_find_value digest st sender nodeid key).2.1 =
        (welcomed digest st sender nodeid).2 ++ t) ∧
    (∃ st1 calls res,
      rpc_file_store digest st sender nodeid key bv =
          Except.ok (st1, calls, res) ∧
        st1.router = (welcomed digest st sender nodeid).1 ∧
        calls = (welcomed digest st sender nodeid).2) ∧
    (∃ st1 calls res,
      rpc_find_file digest st sender nodeid key =
          Except.ok (st1, calls, res) ∧
        st1.router = (welcomed digest st sender nodeid).1 ∧
        calls = (welcomed digest st sender nodeid).2) := by
  refine ⟨rfl, ⟨rfl, rfl⟩, ⟨rfl, rfl⟩, ⟨rfl, rfl⟩, ?_, ?_, ?_⟩
  · cases h : storageGet st.storage key with
    | some v =>
      constructor
      · simp only [rpc_find_value, h, welcomed]
      · exact ⟨[], by simp only [rpc_find_value, h, welcomed,
          List.append_nil]⟩
    | none =>
      constructor
      · simp only [rpc_find_value, h, rpc_find_node, welcomed]
        exact welcome_if_new_fst_stable digest st.source_node st.router
          st.storage (mkSource sender nodeid)
      · refine ⟨(rpc_find_node digest
            { st with router := (welcomed digest st sender nodeid).1 }
            sender nodeid key).2.1, ?_⟩
        simp only [rpc_find_value, h, welcomed]
  · cases bv with
    | bin b =>
      exact ⟨_, _, _, rpc_file_store_bin_eq digest st sender nodeid key b,
        rfl, rfl⟩
    | txt s =>
      exact ⟨_, _, _, rpc_file_store_txt_eq digest st sender nodeid key s,
        rfl, rfl⟩
  · exact ⟨_, _, _, rpc_find_file_eq digest st sender nodeid key,
      rfl, rfl⟩
